import Mathlib

/-!
Verification of the `snowpark-db-api` repository's core string, configuration
and transform logic against its natural-language specification.

The Python sources are shallowly embedded as Lean definitions:
pure string manipulation becomes functions on `String` / `List Char`,
fallible constructors return `Except`, and the external I/O collaborators
(`get_config` reading the environment, `transfer_data` touching databases)
become explicit oracle parameters of type `Except PyErr _`.

Conventions for the embedding of Python strings:
the model covers ASCII text (Python's `str.strip`, `str.upper`, `re` with
`\s`/`\w` additionally handle non-ASCII Unicode; no claim here depends on
non-ASCII input, and all concrete inputs used in theorems are ASCII).
-/

namespace SnowparkDbApi

/-- Whitespace characters stripped by Python's `str.strip()` and matched by
the regex class `\s` (ASCII fragment). -/
def isPySpace (c : Char) : Bool :=
  c = ' ' || c = '\t' || c = '\n' || c = '\r' || c = '\x0b' || c = '\x0c'

/-- Word characters matched by the regex class `\w` (ASCII fragment):
letters, digits and underscore. -/
def isWordChar (c : Char) : Bool :=
  c.isAlphanum || c = '_'

/-- Embedding of Python `str.strip()` on the character list: remove leading
and trailing whitespace. -/
def pyStripList (cs : List Char) : List Char :=
  ((cs.dropWhile isPySpace).reverse.dropWhile isPySpace).reverse

/-- Embedding of Python `str.strip()`. -/
def pyStrip (s : String) : String :=
  ⟨pyStripList s.data⟩

/-- Embedding of Python `str.upper()` (ASCII fragment) on a character list. -/
def pyUpperList (cs : List Char) : List Char :=
  cs.map Char.toUpper

/-- Embedding of Python `str.upper()` (ASCII fragment). -/
def pyUpper (s : String) : String :=
  ⟨pyUpperList s.data⟩

/-- Embedding of Python `str.lower()` (ASCII fragment). -/
def pyLower (s : String) : String :=
  ⟨s.data.map Char.toLower⟩

/-- Test for Python `s.startswith('(')`. -/
def startsParen (s : String) : Bool :=
  match s.data with
  | '(' :: _ => true
  | _ => false

/-- Embedding of Python `str.split(sep)` for a one-character separator:
split at every occurrence of `sep`, keeping empty fields. -/
def pySplitChar (sep : Char) : List Char → List (List Char)
  | [] => [[]]
  | c :: cs =>
    let r := pySplitChar sep cs
    if c = sep then
      [] :: r
    else
      match r with
      | [] => [[c]]
      | h :: t => (c :: h) :: t

/-- Last element of a list of fields; Python `lst[-1]` on the (always
non-empty) result of `str.split`. -/
def lastElem : List (List Char) → List Char
  | [] => []
  | [x] => x
  | _ :: x :: xs => lastElem (x :: xs)

/-- Specification-side description of `t.split(sep)[-1]`: the suffix of `t`
after the last occurrence of `sep` (the whole string when `sep` is absent). -/
def suffixAfterLast (sep : Char) (cs : List Char) : List Char :=
  (cs.reverse.takeWhile (fun c => !(c = sep))).reverse

/-- Embedding of `re.search(r'\)\s+AS\s+(\w+)$', t, re.IGNORECASE)` applied to
an already-stripped string, parsed from the right end of the (reversed)
character list. Returns the captured identifier (in forward order) when the
string ends in `)`, one or more whitespace characters, `AS` in any case, one
or more whitespace characters, and one or more word characters. -/
def extractAliasRev (rs : List Char) : Option (List Char) :=
  let w := rs.takeWhile isWordChar
  let r1 := rs.dropWhile isWordChar
  if w = [] then none else
  let s1 := r1.takeWhile isPySpace
  let r2 := r1.dropWhile isPySpace
  if s1 = [] then none else
  match r2 with
  | cS :: cA :: r3 =>
    if (cS = 'S' || cS = 's') && (cA = 'A' || cA = 'a') then
      let s2 := r3.takeWhile isPySpace
      let r4 := r3.dropWhile isPySpace
      if s2 = [] then none else
      match r4 with
      | ')' :: _ => some w.reverse
      | _ => none
    else none
  | _ => none

/-- Alias extraction on a stripped query string (forward orientation). -/
def extractAlias (t : String) : Option String :=
  (extractAliasRev t.data.reverse).map (⟨·⟩)

/-- Embedding of `api._derive_destination`: query input (stripped form starts
with `(`) yields the upper-cased trailing alias or the sentinel
`"QUERY_RESULT"`; table input yields `t.split('.')[-1].upper()`. -/
def deriveDestination (queryOrTable : String) : String :=
  if startsParen (pyStrip queryOrTable) then
    match extractAlias (pyStrip queryOrTable) with
    | some ident => pyUpper ident
    | none => "QUERY_RESULT"
  else
    pyUpper ⟨lastElem (pySplitChar '.' queryOrTable.data)⟩

/-- Embedding of `transforms.QueryTransform._extract_destination_from_query`:
same trailing-alias regex with the same sentinel fallback. -/
def extractDestinationFromQuery (query : String) : String :=
  match extractAlias (pyStrip query) with
  | some ident => pyUpper ident
  | none => "QUERY_RESULT"

/-- Embedding of Python `str.replace(pat, repl, 1)` for a non-empty pattern:
replace the first (leftmost) occurrence of `pat` by `repl`. -/
def replaceFirst (pat repl : List Char) : List Char → List Char
  | [] => []
  | c :: cs =>
    if pat.isPrefixOf (c :: cs) then
      repl ++ (c :: cs).drop pat.length
    else
      c :: replaceFirst pat repl cs

/-- Embedding of Python's substring containment `pat in s`. -/
def isSubstring (pat : List Char) : List Char → Bool
  | [] => pat.isEmpty
  | c :: cs => pat.isPrefixOf (c :: cs) || isSubstring pat cs

/-- Embedding of `api._apply_limit_to_query`: when `"TOP "` does not occur in
the upper-cased query, replace the first occurrence of `"SELECT "` with
`"SELECT TOP {limit} "`; otherwise return the query unchanged. -/
def applyLimitToQuery (query : String) (limit : Nat) : String :=
  if isSubstring "TOP ".data (pyUpper query).data then query
  else ⟨replaceFirst "SELECT ".data ("SELECT TOP " ++ toString limit ++ " ").data query.data⟩

/-- Snowflake warehouse settings of the runtime `Config` object.
Modelled from the spec: the `Config` class used by `api.py`/`core.py` (with
`db_schema` and `create_db_if_missing`) is not under `src/`; its field set is
taken from spec section 3 ("Warehouse": account, user, credentials, role,
warehouse, database, schema, create-if-missing flag) and matches every field
access in `src/snowpark_db_api/api.py` and `core.py`. -/
structure SnowflakeSettings where
  account : String
  user : String
  password : String
  role : String
  warehouse : String
  database : String
  db_schema : String
  create_db_if_missing : Bool
deriving Repr, DecidableEq

/-- Source-database settings of the runtime `Config` object.
Modelled from the spec: spec section 3 ("Source": host, port, credentials,
database); matches the accesses `config.source.host` / `config.source.database`
in `src/snowpark_db_api/api.py`. -/
structure SourceSettings where
  host : String
  port : Int
  username : String
  password : String
  database : String
deriving Repr, DecidableEq

/-- Transfer settings of the runtime `Config` object.
Modelled from the spec: spec section 3 ("Transfer"); matches the accesses
`config.transfer.*` in `src/snowpark_db_api/api.py` and `core.py`. -/
structure TransferSettings where
  source_table : String
  destination_table : String
  batch_size : Int
  max_workers : Int
  fetch_size : Int
  query_timeout : Int
  mode : String
deriving Repr, DecidableEq

/-- The runtime configuration object threaded through the high-level API.
Modelled from the spec (section 3, "Configuration"): nested record with
source, warehouse and transfer sub-records. -/
structure Config where
  snowflake : SnowflakeSettings
  source : SourceSettings
  transfer : TransferSettings
deriving Repr, DecidableEq

/-- Values storable through the `config_overrides` dict of the high-level
API (`setattr` with a string, boolean or integer value). -/
inductive OValue where
  | str (s : String)
  | boolean (b : Bool)
  | int (n : Int)
deriving Repr, DecidableEq

/-- Embedding of `setattr(config.snowflake, key, value)` guarded by
`hasattr`: the named field is updated when the value has the field's type
(claims in this development only depend on well-typed stores). -/
def setSnowflakeField (s : SnowflakeSettings) (key : String) (v : OValue) : SnowflakeSettings :=
  match key, v with
  | "account", .str x => { s with account := x }
  | "user", .str x => { s with user := x }
  | "password", .str x => { s with password := x }
  | "role", .str x => { s with role := x }
  | "warehouse", .str x => { s with warehouse := x }
  | "database", .str x => { s with database := x }
  | "db_schema", .str x => { s with db_schema := x }
  | "create_db_if_missing", .boolean b => { s with create_db_if_missing := b }
  | _, _ => s

/-- Field names of the snowflake sub-record, for the `hasattr` dispatch. -/
def snowflakeFieldNames : List String :=
  ["account", "user", "password", "role", "warehouse", "database",
   "db_schema", "create_db_if_missing"]

/-- Embedding of `setattr(config.source, key, value)` guarded by `hasattr`. -/
def setSourceField (s : SourceSettings) (key : String) (v : OValue) : SourceSettings :=
  match key, v with
  | "host", .str x => { s with host := x }
  | "port", .int n => { s with port := n }
  | "username", .str x => { s with username := x }
  | "password", .str x => { s with password := x }
  | "database", .str x => { s with database := x }
  | _, _ => s

/-- Field names of the source sub-record, for the `hasattr` dispatch. -/
def sourceFieldNames : List String :=
  ["host", "port", "username", "password", "database"]

/-- Embedding of `setattr(config.transfer, key, value)` guarded by `hasattr`. -/
def setTransferField (s : TransferSettings) (key : String) (v : OValue) : TransferSettings :=
  match key, v with
  | "source_table", .str x => { s with source_table := x }
  | "destination_table", .str x => { s with destination_table := x }
  | "batch_size", .int n => { s with batch_size := n }
  | "max_workers", .int n => { s with max_workers := n }
  | "fetch_size", .int n => { s with fetch_size := n }
  | "query_timeout", .int n => { s with query_timeout := n }
  | "mode", .str x => { s with mode := x }
  | _, _ => s

/-- Field names of the transfer sub-record, for the `hasattr` dispatch. -/
def transferFieldNames : List String :=
  ["source_table", "destination_table", "batch_size", "max_workers",
   "fetch_size", "query_timeout", "mode"]

/-- Embedding of one iteration of the `config_overrides` loop of
`api._get_config_with_overrides`: `hasattr` is checked against the snowflake,
source and transfer sub-records in that order, first match wins, unknown keys
are ignored. -/
def applyOverrideEntry (cfg : Config) (kv : String × OValue) : Config :=
  if kv.1 ∈ snowflakeFieldNames then
    { cfg with snowflake := setSnowflakeField cfg.snowflake kv.1 kv.2 }
  else if kv.1 ∈ sourceFieldNames then
    { cfg with source := setSourceField cfg.source kv.1 kv.2 }
  else if kv.1 ∈ transferFieldNames then
    { cfg with transfer := setTransferField cfg.transfer kv.1 kv.2 }
  else cfg

/-- Embedding of `api._get_config_with_overrides` applied to a base
configuration `base` (the result of `get_config()`).  `none` models a Python
`None` argument and an `Option.some ""` database override models the falsy
empty string (the Python code tests truthiness, so an empty string override
is ignored).  The update order mirrors the source: individual overrides
(setting `create_db_if_missing := false` when the database is overridden and
the flag argument is `None`), then the explicit flag override, then the
`config_overrides` dict. -/
def getConfigWithOverrides (base : Config)
    (snowflakeDatabase snowflakeSchema snowflakeWarehouse sourceDatabase : Option String)
    (configOverrides : List (String × OValue))
    (createDbIfMissing : Option Bool) : Config :=
  let cfg := base
  let cfg :=
    match snowflakeDatabase with
    | some d =>
      if d ≠ "" then
        let cfg := { cfg with snowflake := { cfg.snowflake with database := d } }
        if createDbIfMissing = none then
          { cfg with snowflake := { cfg.snowflake with create_db_if_missing := false } }
        else cfg
      else cfg
    | none => cfg
  let cfg :=
    match snowflakeSchema with
    | some s =>
      if s ≠ "" then { cfg with snowflake := { cfg.snowflake with db_schema := s } } else cfg
    | none => cfg
  let cfg :=
    match snowflakeWarehouse with
    | some w =>
      if w ≠ "" then { cfg with snowflake := { cfg.snowflake with warehouse := w } } else cfg
    | none => cfg
  let cfg :=
    match sourceDatabase with
    | some d =>
      if d ≠ "" then { cfg with source := { cfg.source with database := d } } else cfg
    | none => cfg
  let cfg :=
    match createDbIfMissing with
    | some b => { cfg with snowflake := { cfg.snowflake with create_db_if_missing := b } }
    | none => cfg
  configOverrides.foldl applyOverrideEntry cfg

/-- Record produced by the `TransferConfig` dataclass of
`src/snowpark_db_api/config.py` (the fields touched by `__post_init__`,
plus the numeric knobs with their declared defaults). -/
structure TransferConfigR where
  source_table : String
  destination_table : String
  batch_size : Int
  max_workers : Int
  fetch_size : Int
  query_timeout : Int
  mode : String
deriving Repr, DecidableEq

/-- Embedding of constructing `config.TransferConfig(source_table=...,
destination_table=..., mode=...)` including its `__post_init__` validation:
an empty (falsy) `source_table` raises, an empty `destination_table` is
replaced by `source_table`, and a mode outside the three enumerated values
raises.  The numeric fields keep their dataclass defaults. -/
def mkTransferConfig (sourceTable destinationTable mode : String) :
    Except String TransferConfigR :=
  if sourceTable = "" then
    .error "Source table is required"
  else
    let dest := if destinationTable = "" then sourceTable else destinationTable
    if mode = "overwrite" ∨ mode = "append" ∨ mode = "error" then
      .ok { source_table := sourceTable, destination_table := dest,
            batch_size := 10000, max_workers := 4, fetch_size := 1000,
            query_timeout := 300, mode := mode }
    else
      .error "Mode must be 'overwrite', 'append', or 'error'"

/-- Reversible transform unit: the embedding of the `Transform` interface of
`src/snowpark_db_api/transforms.py` at a fixed value type `V` (Python's
`Any`), as used by the `Pipeline` container. -/
structure PTransform (V : Type) where
  encode : V → V
  decode : V → V

/-- Embedding of `Pipeline.encode`: apply every transform's `encode` in list
order, each stage feeding the next. -/
def pipelineEncode {V : Type} (transforms : List (PTransform V)) (x : V) : V :=
  transforms.foldl (fun result t => t.encode result) x

/-- Embedding of `Pipeline.decode`: apply every transform's `decode` in
reverse list order. -/
def pipelineDecode {V : Type} (transforms : List (PTransform V)) (x : V) : V :=
  transforms.reverse.foldl (fun result t => t.decode result) x

/-- The per-stage round-trip `t.decode(t.encode(x))` named by the spec. -/
def roundTrip {V : Type} (t : PTransform V) (x : V) : V :=
  t.decode (t.encode x)

/-- Specification-side reading of "the composition of the per-stage
round-trips applied in reverse order": the last transform's round-trip is
applied first and the first transform's round-trip last. -/
def revRoundTrips {V : Type} (transforms : List (PTransform V)) (x : V) : V :=
  transforms.foldr (fun t result => roundTrip t result) x

/-- Execution metadata dictionary returned by `QueryTransform.encode`. -/
structure QueryMeta where
  query : String
  destination_table : String
  query_type : String
  estimated_complexity : String
deriving Repr, DecidableEq

/-- Embedding of `QueryTransform._estimate_complexity`: `high` when the
upper-cased query contains `JOIN`, else `medium` when it contains `GROUP BY`,
`ORDER BY` or `HAVING`, else `low`. -/
def estimateComplexity (query : String) : String :=
  if isSubstring "JOIN".data (pyUpper query).data then "high"
  else if isSubstring "GROUP BY".data (pyUpper query).data
       || isSubstring "ORDER BY".data (pyUpper query).data
       || isSubstring "HAVING".data (pyUpper query).data then "medium"
  else "low"

/-- Embedding of `QueryTransform.encode`: `destinationName` models the
transform's `destination_name` attribute (`none` or the empty string is
falsy, in which case the destination is extracted from the query text). -/
def queryTransformEncode (destinationName : Option String) (query : String) : QueryMeta :=
  let destination :=
    match destinationName with
    | some d => if d ≠ "" then d else extractDestinationFromQuery query
    | none => extractDestinationFromQuery query
  { query := query,
    destination_table := destination,
    query_type := if isSubstring "(".data query.data then "custom" else "simple",
    estimated_complexity := estimateComplexity query }

/-- Embedding of `QueryTransform.decode` applied to encoder output: the
`'query'` key is always present there, so `metadata.get('query', ...)`
returns it. -/
def queryTransformDecode (metadata : QueryMeta) : String :=
  metadata.query

/-- Source-side column descriptor for `SchemaTransform`: a dict with
mandatory `name` and `type` keys and an optional `nullable` key. -/
structure SrcColumn where
  name : String
  type : String
  nullable : Option Bool
deriving Repr, DecidableEq

/-- Target-side column descriptor produced by `SchemaTransform.encode`. -/
structure TgtColumn where
  name : String
  type : String
  nullable : Bool
  source_type : String
deriving Repr, DecidableEq

/-- Column descriptor produced by `SchemaTransform.decode` (all three keys
are always written). -/
structure DecColumn where
  name : String
  type : String
  nullable : Bool
deriving Repr, DecidableEq

/-- Embedding of `SchemaTransform._build_type_mapping`: the static SQL Server
source-type table; every other source dialect gets an empty table. -/
def schemaTypeMapping (sourceDbType : String) : List (String × String) :=
  if pyLower sourceDbType = "sqlserver" then
    [("varchar", "STRING"), ("nvarchar", "STRING"), ("char", "STRING"),
     ("nchar", "STRING"), ("text", "STRING"), ("ntext", "STRING"),
     ("int", "INTEGER"), ("bigint", "BIGINT"), ("smallint", "SMALLINT"),
     ("decimal", "DECIMAL"), ("numeric", "DECIMAL"), ("float", "FLOAT"),
     ("real", "FLOAT"), ("datetime", "TIMESTAMP"), ("datetime2", "TIMESTAMP"),
     ("date", "DATE"), ("time", "TIME"), ("bit", "BOOLEAN")]
  else []

/-- Embedding of `SchemaTransform._map_type`: case-insensitive lookup with
`STRING` as the default. -/
def schemaMapType (sourceDbType : String) (sourceType : String) : String :=
  ((schemaTypeMapping sourceDbType).lookup (pyLower sourceType)).getD "STRING"

/-- Embedding of `SchemaTransform.encode`: map every column to the target
type, default `nullable` to true, and retain the original type in
`source_type`. -/
def schemaTransformEncode (sourceDbType : String) (columns : List SrcColumn) :
    List TgtColumn :=
  columns.map fun column =>
    { name := column.name,
      type := schemaMapType sourceDbType column.type,
      nullable := column.nullable.getD true,
      source_type := column.type }

/-- Embedding of `SchemaTransform.decode`: restore the original type from the
retained `source_type` key, defaulting `nullable` to true. -/
def schemaTransformDecode (columns : List TgtColumn) : List DecColumn :=
  columns.map fun column =>
    { name := column.name,
      type := column.source_type,
      nullable := column.nullable }

/-- Snowpark column types named by `core.DataTransfer._map_sql_type_to_snowpark`. -/
inductive SnowparkType where
  | StringType
  | IntegerType
  | DoubleType
  | BooleanType
  | DateType
  | TimestampType
  | DecimalType (precision scale : Nat)
deriving Repr, DecidableEq

/-- The `type_mapping` dict of `core.DataTransfer._map_sql_type_to_snowpark`,
in source order. -/
def sqlTypeTable : List (Int × SnowparkType) :=
  [(1, .StringType), (12, .StringType), (-1, .StringType), (-9, .StringType),
   (4, .IntegerType), (-5, .IntegerType), (5, .IntegerType), (-6, .IntegerType),
   (6, .DoubleType), (8, .DoubleType),
   (2, .DecimalType 18 2), (3, .DecimalType 18 2),
   (91, .DateType), (93, .TimestampType),
   (16, .BooleanType)]

/-- Embedding of `core.DataTransfer._map_sql_type_to_snowpark`:
`type_mapping.get(sql_type_code, StringType())`. -/
def mapSqlTypeToSnowpark (sqlTypeCode : Int) : SnowparkType :=
  (sqlTypeTable.lookup sqlTypeCode).getD .StringType

/-- Exception kinds relevant to requesting a connection factory.  The code
under `src/` only ever raises `ValueError` here; the
`unsupportedDatabaseError` constructor is modelled from the spec's error
taxonomy (section 7 names an `UnsupportedDatabaseError`, but no such class
exists anywhere in the repository). -/
inductive ConnExcKind where
  | valueError
  | unsupportedDatabaseError
deriving Repr, DecidableEq

/-- Which registered factory `connections.get_connection_factory` selects. -/
inductive FactoryKind where
  | sqlserver
  | postgresql
  | mysql
  | oracle
  | databricks
deriving Repr, DecidableEq

/-- The registered database-type tags (the members of the `DatabaseType`
string enum, which are the keys of the `factories` dict; the `str`-enum makes
plain string tags compare equal to the enum members). -/
def registeredDatabaseTypes : List String :=
  ["sqlserver", "postgresql", "mysql", "oracle", "databricks"]

/-- Embedding of `connections.get_connection_factory`: dispatch on the
database-type tag, raising `ValueError` for an unregistered tag. -/
def getConnectionFactory (databaseType : String) :
    Except (ConnExcKind × String) FactoryKind :=
  if databaseType = "sqlserver" then .ok .sqlserver
  else if databaseType = "postgresql" then .ok .postgresql
  else if databaseType = "mysql" then .ok .mysql
  else if databaseType = "oracle" then .ok .oracle
  else if databaseType = "databricks" then .ok .databricks
  else .error (.valueError, "Unsupported database type: " ++ databaseType)

/-- The underlying read issued by the high-level helpers: either a
table-based read or a query-based read of the given SQL text. -/
inductive ReadRequest where
  | table (name : String)
  | query (sql : String)
deriving Repr, DecidableEq

/-- Embedding of `api._transfer_query_highlevel` up to its `transfer_data`
call: destination auto-derivation, row-limit rewriting (a limit of `0` is
falsy and ignored, like Python `if limit:`), and the config field updates.
Returns the issued read request and the updated configuration. -/
def transferQueryHighlevel (query : String) (destination : Option String)
    (limit : Option Nat) (mode : String) (config : Config) : ReadRequest × Config :=
  let dest :=
    match destination with
    | some d => if d ≠ "" then d else deriveDestination query
    | none => deriveDestination query
  let query' :=
    match limit with
    | some n => if n ≠ 0 then applyLimitToQuery query n else query
    | none => query
  let config' :=
    { config with transfer :=
        { config.transfer with destination_table := dest, mode := mode } }
  (.query query', config')

/-- Embedding of `api._transfer_table_highlevel` up to its `transfer_data`
call: destination defaulting (`table.split('.')[-1].upper()`), config field
updates, and conversion to a capped query when a (truthy) limit is given. -/
def transferTableHighlevel (table : String) (destination : Option String)
    (limit : Option Nat) (mode : String) (config : Config) : ReadRequest × Config :=
  let dest :=
    match destination with
    | some d => if d ≠ "" then d else pyUpper ⟨lastElem (pySplitChar '.' table.data)⟩
    | none => pyUpper ⟨lastElem (pySplitChar '.' table.data)⟩
  let config' :=
    { config with transfer :=
        { config.transfer with source_table := table, destination_table := dest,
                               mode := mode } }
  match limit with
  | some n =>
    if n ≠ 0 then
      (.query ("(SELECT TOP " ++ toString n ++ " * FROM " ++ table ++ ") AS " ++ dest),
       config')
    else (.table table, config')
  | none => (.table table, config')

/-- Embedding of the dispatch inside `api.transfer`: input whose stripped
form starts with `(` is treated as a query, everything else as a table name. -/
def highlevelPlan (queryOrTable : String) (destination : Option String)
    (limit : Option Nat) (mode : String) (config : Config) : ReadRequest × Config :=
  if startsParen (pyStrip queryOrTable) then
    transferQueryHighlevel queryOrTable destination limit mode config
  else
    transferTableHighlevel queryOrTable destination limit mode config

/-- Python exception payload raised by the external collaborators
(environment-driven `get_config`, database-touching `transfer_data`). -/
structure PyErr where
  message : String
deriving Repr, DecidableEq

/-- Embedding of the high-level `api.transfer` entry point.  The two external
effects are oracle parameters: `baseConfig` is the outcome of `get_config()`
(which may raise), and `runTransferData` is the outcome of
`core.transfer_data` on the issued read request and updated configuration
(which may raise).  The surrounding `try/except` converts any raised
exception into `False`; the code before the `try` block is the total string
dispatch `query_or_table.strip().startswith('(')`. -/
def transferEntry (queryOrTable : String) (destination : Option String)
    (limit : Option Nat) (mode : String)
    (snowflakeDatabase snowflakeSchema snowflakeWarehouse sourceDatabase : Option String)
    (configOverrides : List (String × OValue)) (createDbIfMissing : Option Bool)
    (baseConfig : Except PyErr Config)
    (runTransferData : ReadRequest → Config → Except PyErr Bool) : Except PyErr Bool :=
  match baseConfig with
  | .error _ => .ok false
  | .ok base =>
    let config := getConfigWithOverrides base snowflakeDatabase snowflakeSchema
      snowflakeWarehouse sourceDatabase configOverrides createDbIfMissing
    let plan := highlevelPlan queryOrTable destination limit mode config
    match runTransferData plan.1 plan.2 with
    | .error _ => .ok false
    | .ok b => .ok b

/-- Embedding of `api.transfer_sample`: a thin wrapper that forwards to
`transfer` with `limit := rows`, `destination := none` and the default mode;
the `destinationSuffix` parameter is accepted exactly as in the source. -/
def transferSampleEntry (queryOrTable : String) (rows : Nat)
    (destinationSuffix : String)
    (snowflakeDatabase snowflakeSchema snowflakeWarehouse sourceDatabase : Option String)
    (configOverrides : List (String × OValue)) (createDbIfMissing : Option Bool)
    (baseConfig : Except PyErr Config)
    (runTransferData : ReadRequest → Config → Except PyErr Bool) : Except PyErr Bool :=
  transferEntry queryOrTable none (some rows) "overwrite"
    snowflakeDatabase snowflakeSchema snowflakeWarehouse sourceDatabase
    configOverrides createDbIfMissing baseConfig runTransferData

/-- A concrete base configuration used to instantiate universally quantified
theorems at witness inputs. -/
def defaultTestConfig : Config :=
  { snowflake :=
      { account := "acct", user := "u", password := "p", role := "r",
        warehouse := "WH", database := "DB", db_schema := "PUBLIC",
        create_db_if_missing := true },
    source :=
      { host := "h", port := 1433, username := "u", password := "p",
        database := "d" },
    transfer :=
      { source_table := "dbo.t", destination_table := "T",
        batch_size := 10000, max_workers := 4, fetch_size := 1000,
        query_timeout := 300, mode := "overwrite" } }

/-- Update the last element of a list of fields (used to describe how
`pySplitChar` extends when one character is appended). -/
def modifyLastField (f : List Char → List Char) : List (List Char) → List (List Char)
  | [] => []
  | [x] => [f x]
  | x :: y :: xs => x :: modifyLastField f (y :: xs)

/-- List-level alias extraction (applied to an already-stripped character
list in forward orientation). -/
def extractAliasL (t : List Char) : Option (List Char) :=
  extractAliasRev t.reverse

/-- Decomposition of a stripped query that the trailing-alias regex accepts:
`t` is anything, then `)`, then one or more whitespace characters, then `AS`
in any letter case, then one or more whitespace characters, then one or more
word characters reaching the end of the string. -/
def HasTrailingAlias (t ident : List Char) : Prop :=
  ∃ pre w1 cA cS w2,
    t = pre ++ [')'] ++ w1 ++ [cA, cS] ++ w2 ++ ident ∧
    w1 ≠ [] ∧ (∀ c ∈ w1, isPySpace c = true) ∧
    (cA = 'A' ∨ cA = 'a') ∧ (cS = 'S' ∨ cS = 's') ∧
    w2 ≠ [] ∧ (∀ c ∈ w2, isPySpace c = true) ∧
    ident ≠ [] ∧ (∀ c ∈ ident, isWordChar c = true)

/-- A concrete transform on naturals (encode adds one, decode is the default
identity) used to exhibit pipeline round-trip behaviour. -/
def cxAddOne : PTransform Nat :=
  { encode := fun x => x + 1, decode := fun x => x }

/-- A concrete transform on naturals (encode doubles, decode is the default
identity) used to exhibit pipeline round-trip behaviour. -/
def cxDouble : PTransform Nat :=
  { encode := fun x => x * 2, decode := fun x => x }

/-- A concrete invertible transform on naturals whose round-trip is the
identity. -/
def cxShift : PTransform Nat :=
  { encode := fun x => x + 1, decode := fun x => x - 1 }

/-! Helper lemmas about `takeWhile` / `dropWhile` on decomposed lists. -/

theorem takeWhile_append_stop {α : Type} {p : α → Bool} {xs : List α} {y : α}
    (ys : List α) (hxs : ∀ x ∈ xs, p x = true) (hy : p y = false) :
    (xs ++ y :: ys).takeWhile p = xs := by
  induction xs with
  | nil => simp [List.takeWhile_cons, hy]
  | cons a xs ih =>
    have ha : p a = true := hxs a (List.mem_cons_self a xs)
    simp only [List.cons_append, List.takeWhile_cons, ha, ite_true]
    rw [ih fun x hx => hxs x (List.mem_cons_of_mem a hx)]

theorem dropWhile_append_stop {α : Type} {p : α → Bool} {xs : List α} {y : α}
    (ys : List α) (hxs : ∀ x ∈ xs, p x = true) (hy : p y = false) :
    (xs ++ y :: ys).dropWhile p = y :: ys := by
  induction xs with
  | nil => simp [List.dropWhile_cons, hy]
  | cons a xs ih =>
    have ha : p a = true := hxs a (List.mem_cons_self a xs)
    simp only [List.cons_append, List.dropWhile_cons, ha, ite_true]
    exact ih fun x hx => hxs x (List.mem_cons_of_mem a hx)

theorem takeWhile_all {α : Type} {p : α → Bool} {xs : List α}
    (hxs : ∀ x ∈ xs, p x = true) : xs.takeWhile p = xs :=
  List.takeWhile_eq_self_iff.mpr hxs

theorem dropWhile_all {α : Type} {p : α → Bool} {xs : List α}
    (hxs : ∀ x ∈ xs, p x = true) : xs.dropWhile p = [] := by
  induction xs with
  | nil => rfl
  | cons a xs ih =>
    have ha : p a = true := hxs a (List.mem_cons_self a xs)
    simp only [List.dropWhile_cons, ha, ite_true]
    exact ih fun x hx => hxs x (List.mem_cons_of_mem a hx)

/-- Whitespace characters are not word characters. -/
theorem not_wordChar_of_pySpace {c : Char} (h : isPySpace c = true) :
    isWordChar c = false := by
  simp only [isPySpace, Bool.or_eq_true, decide_eq_true_eq] at h
  rcases h with ((((h | h) | h) | h) | h) | h <;> subst h <;> decide

/-! The split-last bridge: `t.split(sep)[-1]` equals the suffix of `t` after
the last occurrence of `sep`. -/

theorem pySplitChar_ne_nil (sep : Char) (cs : List Char) :
    pySplitChar sep cs ≠ [] := by
  induction cs with
  | nil => simp [pySplitChar]
  | cons c cs ih =>
    simp only [pySplitChar]
    split
    · simp
    · cases h : pySplitChar sep cs with
      | nil => exact absurd h ih
      | cons hd tl => simp [h]

theorem modifyLastField_cons (f : List Char → List Char) (x : List Char)
    {l : List (List Char)} (hl : l ≠ []) :
    modifyLastField f (x :: l) = x :: modifyLastField f l := by
  cases l with
  | nil => exact absurd rfl hl
  | cons y ys => rfl

theorem pySplitChar_append_single (sep d : Char) (cs : List Char) :
    pySplitChar sep (cs ++ [d]) =
      if d = sep then pySplitChar sep cs ++ [[]]
      else modifyLastField (fun f => f ++ [d]) (pySplitChar sep cs) := by
  induction cs with
  | nil =>
    simp only [List.nil_append, pySplitChar]
    split
    · rfl
    · rfl
  | cons c cs ih =>
    obtain ⟨h0, t0, h⟩ := List.exists_cons_of_ne_nil (pySplitChar_ne_nil sep cs)
    have hstep : pySplitChar sep ((c :: cs) ++ [d]) =
        (if c = sep then [] :: pySplitChar sep (cs ++ [d])
         else match pySplitChar sep (cs ++ [d]) with
              | [] => [[c]]
              | f :: t => (c :: f) :: t) := rfl
    have hstep2 : pySplitChar sep (c :: cs) =
        (if c = sep then [] :: pySplitChar sep cs
         else match pySplitChar sep cs with
              | [] => [[c]]
              | f :: t => (c :: f) :: t) := rfl
    rw [hstep, hstep2, ih, h]
    by_cases hd : d = sep
    · by_cases hc : c = sep <;> simp [hd, hc]
    · by_cases hc : c = sep
      · simp [hd, hc, modifyLastField_cons _ _ (by simp : (h0 :: t0 : List (List Char)) ≠ [])]
      · cases t0 <;> simp [hd, hc, modifyLastField]

theorem lastElem_concat (xs : List (List Char)) (x : List Char) :
    lastElem (xs ++ [x]) = x := by
  induction xs with
  | nil => rfl
  | cons a xs ih =>
    cases xs with
    | nil => rfl
    | cons b bs => simpa [lastElem] using ih

theorem lastElem_modifyLastField (f : List Char → List Char)
    {l : List (List Char)} (hl : l ≠ []) :
    lastElem (modifyLastField f l) = f (lastElem l) := by
  induction l with
  | nil => exact absurd rfl hl
  | cons x xs ih =>
    cases xs with
    | nil => rfl
    | cons y ys =>
      rw [modifyLastField_cons _ _ (by simp : (y :: ys : List (List Char)) ≠ [])]
      have h1 : lastElem (x :: modifyLastField f (y :: ys)) =
          lastElem (modifyLastField f (y :: ys)) := by
        cases h : modifyLastField f (y :: ys) with
        | nil => cases ys <;> simp [modifyLastField] at h
        | cons a as => simp [lastElem]
      rw [h1, ih (by simp)]
      cases ys <;> simp [lastElem]

theorem suffixAfterLast_append_single (sep d : Char) (cs : List Char) :
    suffixAfterLast sep (cs ++ [d]) =
      if d = sep then [] else suffixAfterLast sep cs ++ [d] := by
  simp only [suffixAfterLast, List.reverse_append, List.reverse_cons,
    List.reverse_nil, List.nil_append, List.cons_append, List.takeWhile_cons]
  by_cases hd : d = sep
  · simp [hd]
  · simp [hd]

theorem lastElem_pySplitChar (sep : Char) (cs : List Char) :
    lastElem (pySplitChar sep cs) = suffixAfterLast sep cs := by
  induction cs using List.reverseRecOn with
  | nil => rfl
  | append_singleton xs d ih =>
    rw [pySplitChar_append_single, suffixAfterLast_append_single]
    by_cases hd : d = sep
    · simp [hd, lastElem_concat]
    · simp only [hd, ite_false]
      rw [lastElem_modifyLastField _ (pySplitChar_ne_nil sep xs), ih]

/-! Soundness and completeness of the trailing-alias extraction with respect
to its specification: the regex `\)\s+AS\s+(\w+)$` (case-insensitive) matches
a stripped query exactly when the query decomposes as anything, then `)`,
then whitespace, then `AS` in any case, then whitespace, then a non-empty
identifier extending to the end of the string. -/

theorem extractAliasL_of_hasTrailingAlias {t ident : List Char}
    (h : HasTrailingAlias t ident) : extractAliasL t = some ident := by
  obtain ⟨pre, w1, cA, cS, w2, ht, hw1ne, hw1, hcA, hcS, hw2ne, hw2, hidne, hid⟩ := h
  obtain ⟨b, bs, hb⟩ := List.exists_cons_of_ne_nil (by
    simpa using List.reverse_eq_nil_iff.not.mpr hw2ne :
    w2.reverse ≠ [])
  obtain ⟨e, es, he⟩ := List.exists_cons_of_ne_nil (by
    simpa using List.reverse_eq_nil_iff.not.mpr hw1ne :
    w1.reverse ≠ [])
  have hrs : t.reverse =
      ident.reverse ++ b :: (bs ++ cS :: cA :: e :: (es ++ ')' :: pre.reverse)) := by
    subst ht
    simp only [List.reverse_append, List.reverse_cons, List.reverse_nil,
      List.nil_append, List.append_assoc, hb, he]
    simp
  have hball : ∀ c ∈ (b :: bs), isPySpace c = true := by
    intro c hc
    exact hw2 c (by rw [← List.mem_reverse, hb]; exact hc)
  have heall : ∀ c ∈ (e :: es), isPySpace c = true := by
    intro c hc
    exact hw1 c (by rw [← List.mem_reverse, he]; exact hc)
  have hidall : ∀ c ∈ ident.reverse, isWordChar c = true := by
    intro c hc
    exact hid c (List.mem_reverse.mp hc)
  have hbword : isWordChar b = false :=
    not_wordChar_of_pySpace (hball b (List.mem_cons_self b bs))
  have hcSspace : isPySpace cS = false := by rcases hcS with h | h <;> subst h <;> decide
  have hparen : isPySpace ')' = false := by decide
  have htk1 : (t.reverse).takeWhile isWordChar = ident.reverse := by
    rw [hrs]; exact takeWhile_append_stop _ hidall hbword
  have hdr1 : (t.reverse).dropWhile isWordChar =
      b :: (bs ++ cS :: cA :: e :: (es ++ ')' :: pre.reverse)) := by
    rw [hrs]; exact dropWhile_append_stop _ hidall hbword
  have hshape2 : b :: (bs ++ cS :: cA :: e :: (es ++ ')' :: pre.reverse)) =
      (b :: bs) ++ cS :: (cA :: e :: (es ++ ')' :: pre.reverse)) := by simp
  have htk2 : (b :: (bs ++ cS :: cA :: e :: (es ++ ')' :: pre.reverse))).takeWhile isPySpace
      = b :: bs := by
    rw [hshape2]; exact takeWhile_append_stop _ hball hcSspace
  have hdr2 : (b :: (bs ++ cS :: cA :: e :: (es ++ ')' :: pre.reverse))).dropWhile isPySpace
      = cS :: (cA :: e :: (es ++ ')' :: pre.reverse)) := by
    rw [hshape2]; exact dropWhile_append_stop _ hball hcSspace
  have hshape3 : e :: (es ++ ')' :: pre.reverse) =
      (e :: es) ++ ')' :: pre.reverse := by simp
  have htk3 : (e :: (es ++ ')' :: pre.reverse)).takeWhile isPySpace = e :: es := by
    rw [hshape3]; exact takeWhile_append_stop _ heall hparen
  have hdr3 : (e :: (es ++ ')' :: pre.reverse)).dropWhile isPySpace =
      ')' :: pre.reverse := by
    rw [hshape3]; exact dropWhile_append_stop _ heall hparen
  simp only [extractAliasL, extractAliasRev, htk1, hdr1, htk2, hdr2, htk3, hdr3,
    decide_eq_true_eq]
  rcases hcA with h1 | h1 <;> rcases hcS with h2 | h2 <;> subst h1 <;> subst h2 <;>
    simp [hidne]

theorem hasTrailingAlias_of_extractAliasL {t ident : List Char}
    (h : extractAliasL t = some ident) : HasTrailingAlias t ident := by
  simp only [extractAliasL, extractAliasRev] at h
  split at h
  · exact absurd h (by simp)
  rename_i hne1
  split at h
  · exact absurd h (by simp)
  rename_i hne2
  split at h
  rotate_left
  · exact absurd h (by simp)
  rename_i cS cA r3 heq
  split at h
  rotate_left
  · exact absurd h (by simp)
  rename_i hcondB
  split at h
  · exact absurd h (by simp)
  rename_i hs2ne
  split at h
  rotate_left
  · exact absurd h (by simp)
  rename_i rest heq2
  have hident : ident = (List.takeWhile isWordChar t.reverse).reverse :=
    (Option.some.injEq _ _ ▸ h).symm
  obtain ⟨hcSor, hcAor⟩ : (cS = 'S' ∨ cS = 's') ∧ (cA = 'A' ∨ cA = 'a') := by
    simpa [Bool.and_eq_true, Bool.or_eq_true, decide_eq_true_eq] using hcondB
  have e1 : t.reverse = List.takeWhile isWordChar t.reverse ++
      List.dropWhile isWordChar t.reverse :=
    (List.takeWhile_append_dropWhile _ _).symm
  have e2 : List.dropWhile isWordChar t.reverse =
      List.takeWhile isPySpace (List.dropWhile isWordChar t.reverse) ++ (cS :: cA :: r3) := by
    conv_lhs => rw [← List.takeWhile_append_dropWhile isPySpace
      (List.dropWhile isWordChar t.reverse)]
    rw [heq]
  have e3 : r3 = List.takeWhile isPySpace r3 ++ (')' :: rest) := by
    conv_lhs => rw [← List.takeWhile_append_dropWhile isPySpace r3]
    rw [heq2]
  have htrev : t.reverse = List.takeWhile isWordChar t.reverse ++
      (List.takeWhile isPySpace (List.dropWhile isWordChar t.reverse) ++
        (cS :: cA :: (List.takeWhile isPySpace r3 ++ (')' :: rest)))) := by
    conv_lhs => rw [e1, e2]
    rw [← e3]
  have ht : t = rest.reverse ++ [')'] ++ (List.takeWhile isPySpace r3).reverse ++
      [cA, cS] ++
      (List.takeWhile isPySpace (List.dropWhile isWordChar t.reverse)).reverse ++
      (List.takeWhile isWordChar t.reverse).reverse := by
    have h2 := congrArg List.reverse htrev
    simpa [List.reverse_append, List.append_assoc] using h2
  refine ⟨rest.reverse, (List.takeWhile isPySpace r3).reverse, cA, cS,
    (List.takeWhile isPySpace (List.dropWhile isWordChar t.reverse)).reverse,
    ?_, ?_, ?_, hcAor, hcSor, ?_, ?_, ?_, ?_⟩
  · rw [hident]; exact ht
  · simpa using hs2ne
  · intro c hc
    exact List.mem_takeWhile_imp (List.mem_reverse.mp hc)
  · simpa using hne2
  · intro c hc
    exact List.mem_takeWhile_imp (List.mem_reverse.mp hc)
  · rw [hident]; simpa using hne1
  · intro c hc
    rw [hident] at hc
    exact List.mem_takeWhile_imp (List.mem_reverse.mp hc)

/-- C1: destination-name derivation.  For every table identifier (stripped
form does not start with `(`), `_derive_destination` returns the substring
after the last `.` upper-cased; for every query (stripped form starts with
`(`) whose stripped form ends in `)`, whitespace, `AS` in any case,
whitespace and an identifier, it returns that identifier upper-cased; for
every query without such a trailing alias it returns the sentinel
`"QUERY_RESULT"`.  On the query branch it agrees with
`QueryTransform._extract_destination_from_query`. -/
theorem derive_destination_spec (q : String) :
    (startsParen (pyStrip q) = false →
      deriveDestination q = pyUpper ⟨suffixAfterLast '.' q.data⟩)
    ∧ (∀ ident : List Char, startsParen (pyStrip q) = true →
        HasTrailingAlias (pyStrip q).data ident →
        deriveDestination q = pyUpper ⟨ident⟩)
    ∧ (startsParen (pyStrip q) = true →
        (¬ ∃ ident, HasTrailingAlias (pyStrip q).data ident) →
        deriveDestination q = "QUERY_RESULT")
    ∧ (startsParen (pyStrip q) = true →
        deriveDestination q = extractDestinationFromQuery q) := by
  refine ⟨?_, ?_, ?_, ?_⟩
  · intro hq
    simp only [deriveDestination, hq, Bool.false_eq_true, if_false]
    rw [lastElem_pySplitChar]
  · intro ident hq hal
    have hx : extractAlias (pyStrip q) = some ⟨ident⟩ := by
      have := extractAliasL_of_hasTrailingAlias hal
      simp only [extractAlias, extractAliasL] at this ⊢
      rw [this]
      rfl
    simp only [deriveDestination, hq, if_true, hx]
  · intro hq hno
    have hx : extractAlias (pyStrip q) = none := by
      cases hcase : extractAliasRev (pyStrip q).data.reverse with
      | none => simp [extractAlias, hcase]
      | some w =>
        exact absurd ⟨w, hasTrailingAlias_of_extractAliasL hcase⟩ hno
    simp only [deriveDestination, hq, if_true, hx]
  · intro hq
    simp only [deriveDestination, extractDestinationFromQuery, hq, if_true]

/-- Witness for C1 at concrete inputs covering each branch of the claim. -/
theorem derive_destination_spec_witness :
    deriveDestination "dbo.orders" = pyUpper ⟨suffixAfterLast '.' "dbo.orders".data⟩
    ∧ deriveDestination "(SELECT 1) AS t1" = pyUpper ⟨"t1".data⟩
    ∧ deriveDestination "(SELECT 1)" = "QUERY_RESULT"
    ∧ deriveDestination "(SELECT 1) AS t1" =
        extractDestinationFromQuery "(SELECT 1) AS t1" := by
  refine ⟨(derive_destination_spec "dbo.orders").1 (by decide),
    (derive_destination_spec "(SELECT 1) AS t1").2.1 "t1".data (by decide) ?_,
    (derive_destination_spec "(SELECT 1)").2.2.1 (by decide) ?_,
    (derive_destination_spec "(SELECT 1) AS t1").2.2.2 (by decide)⟩
  · exact ⟨"(SELECT 1".data, [' '], 'A', 'S', [' '], by decide, by decide, by decide,
      Or.inl rfl, Or.inl rfl, by decide, by decide, by decide, by decide⟩
  · rintro ⟨ident, hal⟩
    have h1 := extractAliasL_of_hasTrailingAlias hal
    have h2 : extractAliasL (pyStrip "(SELECT 1)").data = none := by decide
    exact Option.noConfusion (h2.symm.trans h1)

/-- C2 counterexample: constructing `TransferConfig` with
`source_table = "dbo.orders"` and no destination yields the destination
`"dbo.orders"` verbatim, not the upper-cased schema-stripped `"ORDERS"`
the claim promises. -/
theorem transferConfig_default_not_uppercased :
    (mkTransferConfig "dbo.orders" "" "overwrite").map TransferConfigR.destination_table
      = .ok "dbo.orders"
    ∧ ("dbo.orders" : String) ≠ "ORDERS" := by
  exact ⟨rfl, by decide⟩

/-- C2 amended: for every non-empty `source_table`, a valid mode and no
destination given, `TransferConfig.__post_init__` sets `destination_table`
to `source_table` unchanged (no schema stripping, no upper-casing). -/
theorem transferConfig_default_destination (src mode : String)
    (hsrc : src ≠ "")
    (hmode : mode = "overwrite" ∨ mode = "append" ∨ mode = "error") :
    (mkTransferConfig src "" mode).map TransferConfigR.destination_table = .ok src := by
  rcases hmode with h | h | h <;> subst h <;> simp [mkTransferConfig, hsrc, Except.map]

/-- Witness for the amended C2 at a concrete input. -/
theorem transferConfig_default_destination_witness :
    (mkTransferConfig "dbo.sales" "" "append").map TransferConfigR.destination_table
      = .ok "dbo.sales" :=
  transferConfig_default_destination "dbo.sales" "append" (by decide)
    (Or.inr (Or.inl rfl))

/-- Setting any snowflake field other than `create_db_if_missing` leaves the
`create_db_if_missing` flag unchanged. -/
theorem setSnowflakeField_preserve_flag (s : SnowflakeSettings) (key : String)
    (v : OValue) (h : key ≠ "create_db_if_missing") :
    (setSnowflakeField s key v).create_db_if_missing = s.create_db_if_missing := by
  unfold setSnowflakeField
  split <;> first | rfl | exact absurd rfl h

/-- One `config_overrides` entry whose key is not `create_db_if_missing`
leaves the `create_db_if_missing` flag unchanged. -/
theorem applyOverrideEntry_preserve_flag (cfg : Config) (kv : String × OValue)
    (h : kv.1 ≠ "create_db_if_missing") :
    (applyOverrideEntry cfg kv).snowflake.create_db_if_missing
      = cfg.snowflake.create_db_if_missing := by
  unfold applyOverrideEntry
  split
  · exact setSnowflakeField_preserve_flag _ _ _ h
  · split
    · rfl
    · split <;> rfl

/-- Folding `config_overrides` entries none of which names
`create_db_if_missing` preserves the flag. -/
theorem foldl_overrides_preserve_flag (cov : List (String × OValue))
    (hcov : ∀ kv ∈ cov, kv.1 ≠ "create_db_if_missing") :
    ∀ cfg : Config,
      (cov.foldl applyOverrideEntry cfg).snowflake.create_db_if_missing
        = cfg.snowflake.create_db_if_missing := by
  induction cov with
  | nil => intro cfg; rfl
  | cons kv rest ih =>
    intro cfg
    rw [List.foldl_cons,
      ih (fun x hx => hcov x (List.mem_cons_of_mem kv hx)),
      applyOverrideEntry_preserve_flag cfg kv (hcov kv (List.mem_cons_self kv rest))]

/-- C3: the high-level override merge with a (truthy) `snowflake_database`
override and `create_db_if_missing` left as `None` yields a configuration
whose `create_db_if_missing` flag is `False`; when `create_db_if_missing` is
explicitly supplied, the resulting flag equals the supplied value.  The
`config_overrides` dict is arbitrary as long as it does not itself name
`create_db_if_missing`. -/
theorem apply_overrides_create_db_flag (base : Config) (d : String)
    (schema wh srcDb : Option String) (cov : List (String × OValue))
    (hd : d ≠ "")
    (hcov : ∀ kv ∈ cov, kv.1 ≠ "create_db_if_missing") :
    (getConfigWithOverrides base (some d) schema wh srcDb cov
        none).snowflake.create_db_if_missing = false
    ∧ ∀ b : Bool,
      (getConfigWithOverrides base (some d) schema wh srcDb cov
          (some b)).snowflake.create_db_if_missing = b := by
  have hpres := foldl_overrides_preserve_flag cov hcov
  constructor
  · simp only [getConfigWithOverrides, hpres]
    rcases schema with _ | s <;> rcases wh with _ | w <;> rcases srcDb with _ | sd <;>
      simp [hd] <;> (try split_ifs) <;> rfl
  · intro b
    simp only [getConfigWithOverrides, hpres]

/-- Witness for C3 at concrete inputs. -/
theorem apply_overrides_create_db_flag_witness :
    (getConfigWithOverrides defaultTestConfig (some "DB_API_MSSQL") none none none
        [("warehouse", .str "LARGE_WH")] none).snowflake.create_db_if_missing = false
    ∧ ∀ b : Bool,
      (getConfigWithOverrides defaultTestConfig (some "DB_API_MSSQL") none none none
          [("warehouse", .str "LARGE_WH")] (some b)).snowflake.create_db_if_missing = b :=
  apply_overrides_create_db_flag defaultTestConfig "DB_API_MSSQL" none none none
    [("warehouse", .str "LARGE_WH")] (by decide) (by decide)

/-- C4: the high-level `transfer` entry point never propagates an exception.
For every input string, every combination of override arguments and every
behaviour of the external collaborators (the environment-driven
`get_config()` and the database-touching `transfer_data`, both of which may
raise), `transfer` returns `ok` of a boolean, returning `ok false` whenever
either stage raises. -/
theorem transfer_never_raises (q : String) (destination : Option String)
    (limit : Option Nat) (mode : String)
    (sfDb sfSchema sfWh srcDb : Option String)
    (cov : List (String × OValue)) (createDb : Option Bool)
    (baseConfig : Except PyErr Config)
    (runTD : ReadRequest → Config → Except PyErr Bool) :
    (∃ b : Bool, transferEntry q destination limit mode sfDb sfSchema sfWh srcDb
        cov createDb baseConfig runTD = .ok b)
    ∧ (∀ e, baseConfig = .error e →
        transferEntry q destination limit mode sfDb sfSchema sfWh srcDb
          cov createDb baseConfig runTD = .ok false)
    ∧ (∀ base e, baseConfig = .ok base →
        runTD (highlevelPlan q destination limit mode
            (getConfigWithOverrides base sfDb sfSchema sfWh srcDb cov createDb)).1
          (highlevelPlan q destination limit mode
            (getConfigWithOverrides base sfDb sfSchema sfWh srcDb cov createDb)).2
          = .error e →
        transferEntry q destination limit mode sfDb sfSchema sfWh srcDb
          cov createDb baseConfig runTD = .ok false) := by
  refine ⟨?_, ?_, ?_⟩
  · cases baseConfig with
    | error e => exact ⟨false, rfl⟩
    | ok base =>
      cases h : runTD (highlevelPlan q destination limit mode
          (getConfigWithOverrides base sfDb sfSchema sfWh srcDb cov createDb)).1
        (highlevelPlan q destination limit mode
          (getConfigWithOverrides base sfDb sfSchema sfWh srcDb cov createDb)).2 with
      | error e => exact ⟨false, by simp [transferEntry, h]⟩
      | ok b => exact ⟨b, by simp [transferEntry, h]⟩
  · intro e he
    subst he
    rfl
  · intro base e hb hr
    subst hb
    simp [transferEntry, hr]

/-- Witness for C4: a failing `get_config`, and a failing `transfer_data`,
each converted to `ok false`. -/
theorem transfer_never_raises_witness :
    (∃ b : Bool, transferEntry "dbo.t" none none "overwrite" none none none none
        [] none (.error ⟨"boom"⟩) (fun _ _ => .ok true) = .ok b)
    ∧ transferEntry "dbo.t" none none "overwrite" none none none none
        [] none (.error ⟨"boom"⟩) (fun _ _ => .ok true) = .ok false
    ∧ transferEntry "dbo.t" none none "overwrite" none none none none
        [] none (.ok defaultTestConfig) (fun _ _ => .error ⟨"db down"⟩) = .ok false :=
  ⟨(transfer_never_raises "dbo.t" none none "overwrite" none none none none
      [] none (.error ⟨"boom"⟩) (fun _ _ => .ok true)).1,
   (transfer_never_raises "dbo.t" none none "overwrite" none none none none
      [] none (.error ⟨"boom"⟩) (fun _ _ => .ok true)).2.1 ⟨"boom"⟩ rfl,
   (transfer_never_raises "dbo.t" none none "overwrite" none none none none
      [] none (.ok defaultTestConfig) (fun _ _ => .error ⟨"db down"⟩)).2.2
      defaultTestConfig ⟨"db down"⟩ rfl rfl⟩

/-- C10: `transfer_sample` is independent of its `destination_suffix`
argument.  For a fixed source, row count, override arguments and external
behaviour, any two calls differing only in `destination_suffix` produce the
same result (the parameter is accepted but never read, so the underlying
transfer and its destination are identical). -/
theorem transfer_sample_suffix_independent (q : String) (rows : Nat)
    (suffix1 suffix2 : String)
    (sfDb sfSchema sfWh srcDb : Option String)
    (cov : List (String × OValue)) (createDb : Option Bool)
    (baseConfig : Except PyErr Config)
    (runTD : ReadRequest → Config → Except PyErr Bool) :
    transferSampleEntry q rows suffix1 sfDb sfSchema sfWh srcDb cov createDb
        baseConfig runTD
      = transferSampleEntry q rows suffix2 sfDb sfSchema sfWh srcDb cov createDb
        baseConfig runTD :=
  rfl

/-- A non-empty pattern occurring first at offset `pre.length` is replaced
there by `str.replace(pat, repl, 1)`. -/
theorem replaceFirst_first_occurrence (pat repl : List Char) (hpat : pat ≠ []) :
    ∀ pre rest : List Char,
      (∀ pre' rest', pre ++ pat ++ rest = pre' ++ pat ++ rest' →
        pre.length ≤ pre'.length) →
      replaceFirst pat repl (pre ++ pat ++ rest) = pre ++ repl ++ rest := by
  intro pre
  induction pre with
  | nil =>
    intro rest _
    obtain ⟨p, ps, hp⟩ := List.exists_cons_of_ne_nil hpat
    subst hp
    simp only [List.nil_append, List.cons_append, replaceFirst]
    rw [if_pos ( List.isPrefixOf_iff_prefix.mpr ⟨rest, by simp⟩)]
    simp [List.drop_succ_cons, List.drop_left]
  | cons a pre' ih =>
    intro rest hmin
    have hnp : (pat.isPrefixOf (a :: (pre' ++ (pat ++ rest)))) = false := by
      by_contra hcon
      have hp : pat <+: (a :: (pre' ++ (pat ++ rest))) :=
        List.isPrefixOf_iff_prefix.mp (Bool.not_eq_false _ ▸ hcon)
      obtain ⟨tail0, htail⟩ := hp
      have := hmin [] tail0 (by simpa [List.append_assoc] using htail.symm)
      simp at this
    have hstep : replaceFirst pat repl ((a :: pre') ++ pat ++ rest)
        = a :: replaceFirst pat repl (pre' ++ (pat ++ rest)) := by
      simp only [List.cons_append, replaceFirst, List.append_eq, List.append_assoc,
        hnp, Bool.false_eq_true, if_false]
    rw [hstep,
      show pre' ++ (pat ++ rest) = pre' ++ pat ++ rest from (List.append_assoc _ _ _).symm,
      ih rest ?_]
    · simp
    · intro pre'' rest'' hsplit
      have := hmin (a :: pre'') rest'' (by simp [hsplit])
      simpa using this

/-- C5 counterexample: `transfer_sample` on a query that already contains
the substring `"TOP "` leaves the query untouched, so the underlying read is
not capped at the requested row count.  Sampling 50 rows of
`(SELECT TOP 500 * FROM dbo.t) AS x` issues the original 500-row query with
no `TOP 50` inserted. -/
theorem transfer_sample_limit_counterexample :
    (highlevelPlan "(SELECT TOP 500 * FROM dbo.t) AS x" none (some 50) "overwrite"
        defaultTestConfig).1 = .query "(SELECT TOP 500 * FROM dbo.t) AS x"
    ∧ applyLimitToQuery "(SELECT TOP 500 * FROM dbo.t) AS x" 50
        = "(SELECT TOP 500 * FROM dbo.t) AS x"
    ∧ ("(SELECT TOP 500 * FROM dbo.t) AS x" : String)
        ≠ "(SELECT TOP 50 TOP 500 * FROM dbo.t) AS x" := by
  refine ⟨by decide, by decide, by decide⟩

/-- C5 amended: for a positive row count `n`, table input is converted to
the query `(SELECT TOP n * FROM t) AS <derived destination>` exactly as
claimed; query input is rewritten only when the upper-cased query does not
already contain `"TOP "`, in which case the first occurrence of the
case-sensitive `"SELECT "` is replaced by `"SELECT TOP n "`; a query whose
upper-cased text already contains `"TOP "` (or that never contains an
uppercase `"SELECT "`) is issued unchanged and is not capped. -/
theorem transfer_sample_limit (n : Nat) (hn : 0 < n) :
    (∀ (t : String) (cfg : Config), startsParen (pyStrip t) = false →
      (highlevelPlan t none (some n) "overwrite" cfg).1 =
        .query ("(SELECT TOP " ++ toString n ++ " * FROM " ++ t ++ ") AS "
          ++ pyUpper ⟨suffixAfterLast '.' t.data⟩))
    ∧ (∀ (q : String) (cfg : Config) (pre rest : List Char),
        startsParen (pyStrip q) = true →
        isSubstring "TOP ".data (pyUpper q).data = false →
        q.data = pre ++ "SELECT ".data ++ rest →
        (∀ pre' rest', q.data = pre' ++ "SELECT ".data ++ rest' →
          pre.length ≤ pre'.length) →
        (highlevelPlan q none (some n) "overwrite" cfg).1 =
          .query ⟨pre ++ ("SELECT TOP " ++ toString n ++ " ").data ++ rest⟩)
    ∧ (∀ (q : String) (cfg : Config),
        startsParen (pyStrip q) = true →
        isSubstring "TOP ".data (pyUpper q).data = true →
        (highlevelPlan q none (some n) "overwrite" cfg).1 = .query q) := by
  have hne : n ≠ 0 := Nat.pos_iff_ne_zero.mp hn
  refine ⟨?_, ?_, ?_⟩
  · intro t cfg ht
    simp only [highlevelPlan, ht, Bool.false_eq_true, if_false,
      transferTableHighlevel, hne, ne_eq, not_false_iff, if_true]
    rw [lastElem_pySplitChar]
  · intro q cfg pre rest hq htop hsplit hmin
    simp only [highlevelPlan, hq, if_true, transferQueryHighlevel, hne, ne_eq,
      not_false_iff, if_true, applyLimitToQuery, htop, Bool.false_eq_true, if_false]
    congr 1
    rw [show q.data = pre ++ "SELECT ".data ++ rest from hsplit]
    rw [replaceFirst_first_occurrence _ _ (by decide) pre rest
      (fun pre' rest' h => hmin pre' rest' (hsplit ▸ h))]
  · intro q cfg hq htop
    simp only [highlevelPlan, hq, if_true, transferQueryHighlevel, hne, ne_eq,
      not_false_iff, if_true, applyLimitToQuery, htop, if_true]

/-- Witness for the amended C5, covering the table branch, the rewritten
query branch and the already-capped query branch. -/
theorem transfer_sample_limit_witness :
    (highlevelPlan "dbo.orders" none (some 50) "overwrite" defaultTestConfig).1 =
      .query ("(SELECT TOP " ++ toString 50 ++ " * FROM " ++ "dbo.orders" ++ ") AS "
        ++ pyUpper ⟨suffixAfterLast '.' "dbo.orders".data⟩)
    ∧ (highlevelPlan "(SELECT * FROM dbo.t) AS x" none (some 50) "overwrite"
        defaultTestConfig).1 =
      .query ⟨"(".data ++ ("SELECT TOP " ++ toString 50 ++ " ").data
        ++ "* FROM dbo.t) AS x".data⟩
    ∧ (highlevelPlan "(SELECT TOP 9 * FROM dbo.t) AS y" none (some 50) "overwrite"
        defaultTestConfig).1 = .query "(SELECT TOP 9 * FROM dbo.t) AS y" := by
  refine ⟨(transfer_sample_limit 50 (by decide)).1 "dbo.orders" defaultTestConfig
      (by decide),
    (transfer_sample_limit 50 (by decide)).2.1 "(SELECT * FROM dbo.t) AS x"
      defaultTestConfig "(".data "* FROM dbo.t) AS x".data (by decide) (by decide)
      (by decide) ?_,
    (transfer_sample_limit 50 (by decide)).2.2 "(SELECT TOP 9 * FROM dbo.t) AS y"
      defaultTestConfig (by decide) (by decide)⟩
  intro pre' rest' h
  cases pre' with
  | cons a l => simp
  | nil =>
    exfalso
    have hpref : "SELECT ".data.isPrefixOf "(SELECT * FROM dbo.t) AS x".data = true :=
      List.isPrefixOf_iff_prefix.mpr ⟨rest', by simpa using h.symm⟩
    exact absurd hpref (by decide)

/-- When every stage's round-trip is the identity, the pipeline round-trip is
the identity. -/
theorem pipeline_roundTrip_id {V : Type} (ts : List (PTransform V))
    (hid : ∀ u ∈ ts, ∀ y, roundTrip u y = y) :
    ∀ x, pipelineDecode ts (pipelineEncode ts x) = x := by
  induction ts with
  | nil => intro x; rfl
  | cons t ts ih =>
    intro x
    have hrec : pipelineDecode (t :: ts) (pipelineEncode (t :: ts) x)
        = t.decode (pipelineDecode ts (pipelineEncode ts (t.encode x))) := by
      simp [pipelineEncode, pipelineDecode, List.foldl_append]
    rw [hrec, ih (fun u hu => hid u (List.mem_cons_of_mem t hu)) (t.encode x)]
    exact hid t (List.mem_cons_self t ts) x

/-- C6 counterexample: for the two-stage pipeline `[cxAddOne, cxDouble]` the
pipeline round-trip of `0` is `2`, while the reverse-order composition of the
per-stage round-trips gives `1` — the claimed equality fails. -/
theorem pipeline_roundtrip_counterexample :
    pipelineDecode [cxAddOne, cxDouble] (pipelineEncode [cxAddOne, cxDouble] 0) = 2
    ∧ revRoundTrips [cxAddOne, cxDouble] 0 = 1
    ∧ (2 : Nat) ≠ 1 := by
  refine ⟨rfl, rfl, by decide⟩

/-- C6 amended: `Pipeline.encode` is the left-to-right fold of the stage
encoders and `Pipeline.decode` the reverse-order fold of the stage decoders,
exactly as claimed; the pipeline round-trip, however, nests the per-stage
round-trips (each stage's decode wraps around the inner stages) rather than
composing them in reverse order — when every stage's round-trip is the
identity the pipeline round-trip is the identity, but in general
`p.decode(p.encode x)` differs from the reverse-order composition of
round-trips. -/
theorem pipeline_folds {V : Type} (ts : List (PTransform V)) (t : PTransform V)
    (x : V) :
    (pipelineEncode (ts ++ [t]) x = t.encode (pipelineEncode ts x))
    ∧ (pipelineDecode (ts ++ [t]) x = pipelineDecode ts (t.decode x))
    ∧ (pipelineDecode (t :: ts) (pipelineEncode (t :: ts) x)
        = t.decode (pipelineDecode ts (pipelineEncode ts (t.encode x))))
    ∧ ((∀ u ∈ t :: ts, ∀ y, roundTrip u y = y) →
        pipelineDecode (t :: ts) (pipelineEncode (t :: ts) x) = x) := by
  refine ⟨?_, ?_, ?_, ?_⟩
  · simp [pipelineEncode, List.foldl_append]
  · simp [pipelineDecode, List.reverse_append]
  · simp [pipelineEncode, pipelineDecode, List.foldl_append]
  · intro hid
    exact pipeline_roundTrip_id (t :: ts) hid x

/-- Witness for C6 applying the fold laws and the identity-round-trip case at
a concrete pipeline. -/
theorem pipeline_folds_witness :
    (pipelineEncode [cxAddOne, cxDouble] 3
      = cxDouble.encode (pipelineEncode [cxAddOne] 3))
    ∧ (pipelineDecode [cxAddOne, cxDouble] 3
      = pipelineDecode [cxAddOne] (cxDouble.decode 3))
    ∧ (pipelineDecode [cxShift] (pipelineEncode [cxShift] 5)
        = cxShift.decode (pipelineDecode [] (pipelineEncode [] (cxShift.encode 5))))
    ∧ pipelineDecode [cxShift] (pipelineEncode [cxShift] 5) = 5 := by
  refine ⟨(pipeline_folds [cxAddOne] cxDouble 3).1,
    (pipeline_folds [cxAddOne] cxDouble 3).2.1,
    (pipeline_folds [] cxShift 5).2.2.1,
    (pipeline_folds [] cxShift 5).2.2.2 ?_⟩
  intro u hu y
  simp only [List.mem_singleton] at hu
  subst hu
  simp [roundTrip, cxShift]

/-- C7: round-trip recovery.  For every `QueryTransform` state and query
string, `decode(encode(q))` returns `q` exactly; for every `SchemaTransform`
dialect and list of column descriptors with `name` and `type` keys,
`decode(encode(columns))` recovers each column's name, type and nullable
value, with `nullable` defaulting to true when absent. -/
theorem transform_round_trips (destinationName : Option String) (q : String)
    (sourceDbType : String) (columns : List SrcColumn) :
    queryTransformDecode (queryTransformEncode destinationName q) = q
    ∧ schemaTransformDecode (schemaTransformEncode sourceDbType columns)
        = columns.map (fun c =>
            { name := c.name, type := c.type, nullable := c.nullable.getD true }) := by
  constructor
  · rfl
  · simp [schemaTransformDecode, schemaTransformEncode]

/-- An association-list lookup whose key differs from every stored key
returns `none`. -/
theorem lookup_eq_none_of_forall_ne {β : Type} (k : Int) (l : List (Int × β))
    (h : ∀ p ∈ l, p.1 ≠ k) : l.lookup k = none := by
  induction l with
  | nil => rfl
  | cons p ps ih =>
    obtain ⟨k1, v1⟩ := p
    have hne : (k == k1) = false :=
      beq_eq_false_iff_ne.mpr (Ne.symm (h (k1, v1) (List.mem_cons_self _ _)))
    simp only [List.lookup, hne]
    exact ih fun x hx => h x (List.mem_cons_of_mem _ hx)

/-- C8 counterexample: the SQL type code 6 (FLOAT), which the claim's table
omits and therefore consigns to the string default, actually maps to the
double type. -/
theorem sql_type_float_counterexample :
    mapSqlTypeToSnowpark 6 = SnowparkType.DoubleType
    ∧ SnowparkType.DoubleType ≠ SnowparkType.StringType := by
  exact ⟨rfl, by decide⟩

/-- C8 amended: the schema-inference type-code mapping is total with a string
default — string-like codes (1, 12, -1, -9) map to string, integer-like
codes (4, -5, 5, -6) to integer, float codes (6, 8) to double, decimal codes
(2, 3) to decimal(18,2), 91 to date, 93 to timestamp, 16 to boolean, and
every code outside this fifteen-entry table maps to string. -/
theorem sql_type_mapping_spec (c : Int) :
    (c ∈ ([1, 12, -1, -9] : List Int) → mapSqlTypeToSnowpark c = .StringType)
    ∧ (c ∈ ([4, -5, 5, -6] : List Int) → mapSqlTypeToSnowpark c = .IntegerType)
    ∧ (c ∈ ([6, 8] : List Int) → mapSqlTypeToSnowpark c = .DoubleType)
    ∧ (c ∈ ([2, 3] : List Int) → mapSqlTypeToSnowpark c = .DecimalType 18 2)
    ∧ (c = 91 → mapSqlTypeToSnowpark c = .DateType)
    ∧ (c = 93 → mapSqlTypeToSnowpark c = .TimestampType)
    ∧ (c = 16 → mapSqlTypeToSnowpark c = .BooleanType)
    ∧ (c ∉ ([1, 12, -1, -9, 4, -5, 5, -6, 6, 8, 2, 3, 91, 93, 16] : List Int) →
        mapSqlTypeToSnowpark c = .StringType) := by
  refine ⟨?_, ?_, ?_, ?_, ?_, ?_, ?_, ?_⟩
  · intro h; fin_cases h <;> rfl
  · intro h; fin_cases h <;> rfl
  · intro h; fin_cases h <;> rfl
  · intro h; fin_cases h <;> rfl
  · intro h; subst h; rfl
  · intro h; subst h; rfl
  · intro h; subst h; rfl
  · intro h
    unfold mapSqlTypeToSnowpark
    rw [lookup_eq_none_of_forall_ne c sqlTypeTable ?_]
    · rfl
    · intro p hp
      fin_cases hp <;> exact fun hc => h (hc ▸ (by decide))

/-- Witness for the amended C8 at one code from each group and an unmapped
code. -/
theorem sql_type_mapping_spec_witness :
    mapSqlTypeToSnowpark 12 = SnowparkType.StringType
    ∧ mapSqlTypeToSnowpark 4 = SnowparkType.IntegerType
    ∧ mapSqlTypeToSnowpark 8 = SnowparkType.DoubleType
    ∧ mapSqlTypeToSnowpark 3 = SnowparkType.DecimalType 18 2
    ∧ mapSqlTypeToSnowpark 91 = SnowparkType.DateType
    ∧ mapSqlTypeToSnowpark 93 = SnowparkType.TimestampType
    ∧ mapSqlTypeToSnowpark 16 = SnowparkType.BooleanType
    ∧ mapSqlTypeToSnowpark 7 = SnowparkType.StringType :=
  ⟨(sql_type_mapping_spec 12).1 (by decide),
   (sql_type_mapping_spec 4).2.1 (by decide),
   (sql_type_mapping_spec 8).2.2.1 (by decide),
   (sql_type_mapping_spec 3).2.2.2.1 (by decide),
   (sql_type_mapping_spec 91).2.2.2.2.1 rfl,
   (sql_type_mapping_spec 93).2.2.2.2.2.1 rfl,
   (sql_type_mapping_spec 16).2.2.2.2.2.2.1 rfl,
   (sql_type_mapping_spec 7).2.2.2.2.2.2.2 (by decide)⟩

/-- C9 counterexample: requesting a connection factory for the unregistered
tag `"db2"` fails with a `ValueError`, not with the
`UnsupportedDatabaseError` the claim names (no such exception class exists
in the repository). -/
theorem get_connection_factory_valueerror :
    getConnectionFactory "db2"
      = .error (.valueError, "Unsupported database type: db2")
    ∧ ConnExcKind.valueError ≠ ConnExcKind.unsupportedDatabaseError := by
  exact ⟨rfl, by decide⟩

/-- C9 amended: for every database-type tag outside the registered set
{sqlserver, postgresql, mysql, oracle, databricks}, requesting a connection
factory fails — but with a `ValueError` carrying the message
`Unsupported database type: <tag>`. -/
theorem get_connection_factory_unregistered (tag : String)
    (h : tag ∉ registeredDatabaseTypes) :
    getConnectionFactory tag
      = .error (.valueError, "Unsupported database type: " ++ tag) := by
  have h1 : tag ≠ "sqlserver" := fun hc => h (hc ▸ (by decide))
  have h2 : tag ≠ "postgresql" := fun hc => h (hc ▸ (by decide))
  have h3 : tag ≠ "mysql" := fun hc => h (hc ▸ (by decide))
  have h4 : tag ≠ "oracle" := fun hc => h (hc ▸ (by decide))
  have h5 : tag ≠ "databricks" := fun hc => h (hc ▸ (by decide))
  simp [getConnectionFactory, h1, h2, h3, h4, h5]

/-- Witness for the amended C9 at a concrete unregistered tag. -/
theorem get_connection_factory_unregistered_witness :
    getConnectionFactory "mongodb"
      = .error (.valueError, "Unsupported database type: mongodb") :=
  get_connection_factory_unregistered "mongodb" (by decide)

end SnowparkDbApi
